import Mathlib

/-!
Verification of the aerospike UDF validator (a Rust proc-macro crate).

The crate parses a Lua script, walks its syntax tree collecting validation
diagnostics (reserved aerospike identifiers; declarations in the outermost
scope), additionally runs the script in an `rlua` sandbox, and reports the
result as compile errors or the accepted token stream.

The embedding below mirrors `src/lib.rs` function by function.  The external
collaborators (the `luaparse` parser and the `rlua` interpreter) are modelled
by their results: the parser by an `Except` value, the interpreter by an
`Option String` error.  The mutable `&mut Vec<String>` error accumulator of
the Rust code is modelled by explicit list passing, with `Vec::push`
appending at the tail.
-/

namespace AerospikeCodeGen

/-- An assignment target (`luaparse::ast::Var`): either a bare identifier
(`Var::Name`) or a member/index expression (any other `Var` variant, whose
internal structure the validator never inspects). -/
inductive Var where
  | name (s : String)
  | nonName
  deriving DecidableEq, Repr

/-- A Lua statement as consumed by the validator (`luaparse::ast::Statement`).
Variants the validator does not inspect are collapsed into `other`.
A function declaration carries whether it is `local`, its declared name,
its parameter names and its body block; an `if` carries the primary block,
the list of `elseif` blocks (in source order) and the optional `else` block. -/
inductive Statement where
  | functionDeclaration (isLocal : Bool) (declName : String) (params : List String) (body : List Statement)
  | localDeclaration (names : List String)
  | assignment (vars : List Var)
  | ifStat (block : List Statement) (elseifs : List (List Statement)) (elseBlock : Option (List Statement))
  | whileStat (block : List Statement)
  | forGeneric (block : List Statement)
  | forNumerical (block : List Statement)
  | repeatStat (block : List Statement)
  | other

/-- The constant `AEROSPIKE_NAMES: [&str; 9]` from `src/lib.rs`: nine entries,
`"list"` appearing twice. -/
def AEROSPIKE_NAMES : List String :=
  ["record", "map", "list", "aerospike", "bytes", "geojson", "iterator", "list", "stream"]

/-- `fn is_reserved(s: &str) -> bool`: linear scan of `AEROSPIKE_NAMES`,
returning true on the first exact match. -/
def is_reserved (s : String) : Bool :=
  AEROSPIKE_NAMES.any (fun aerospike_name => aerospike_name == s)

/-- The message pushed for a reserved identifier, from the `format!` in
`validate_names`. -/
def reservedMsg (name : String) : String :=
  "aerospike reserved identifier: `" ++ name ++ "`. consider renaming your variable"

/-- The message pushed for a disallowed outermost-scope declaration, from the
`format!` in `validate_names`. -/
def globalMsg (name : String) : String :=
  "global variables are not allowed: `" ++ name ++ "`"

/-- `fn validate_names(names, errors, allow_vars)`: for each name, push the
reserved-identifier message when `is_reserved`, then push the global-variable
message when `!allow_vars`. -/
def validate_names (names : List String) (errors : List String) (allow_vars : Bool) : List String :=
  match names with
  | [] => errors
  | name :: rest =>
    let errors := if is_reserved name then errors ++ [reservedMsg name] else errors
    let errors := if !allow_vars then errors ++ [globalMsg name] else errors
    validate_names rest errors allow_vars

mutual

/-- `fn recurse(stmt, errors, mut is_global)`: `allow_vars` starts true; when
`is_global` holds, `is_global` is set to false and `allow_vars` to false.
Dispatch on the statement exactly as the Rust `match`: note that the `If` arm
visits the primary block, then the `else` block, then the `elseif` blocks.
The `FunctionDeclaration` arm (both `Local` and `Nonlocal`, which are handled
identically and ignore the declared name) is `validate_func`, inlined here so
the mutual recursion is structural; `validate_func` below restates it. -/
def recurse (stmt : Statement) (errors : List String) (is_global : Bool) : List String :=
  let allow_vars := !is_global
  let is_global := false
  match stmt with
  | .functionDeclaration _ _ params body =>
    let errors := validate_names params errors true
    loop_statements body errors is_global
  | .localDeclaration names =>
    validate_names names errors allow_vars
  | .assignment vars =>
    let names := vars.filterMap (fun v => match v with | .name n => some n | .nonName => none)
    validate_names names errors allow_vars
  | .ifStat block elseifs elseBlock =>
    let errors := loop_statements block errors is_global
    let errors :=
      match elseBlock with
      | some el => loop_statements el errors is_global
      | none => errors
    loop_elseifs elseifs errors is_global
  | .whileStat block => loop_statements block errors is_global
  | .forGeneric block => loop_statements block errors is_global
  | .forNumerical block => loop_statements block errors is_global
  | .repeatStat block => loop_statements block errors is_global
  | .other => errors
termination_by structural stmt

/-- `fn loop_statements(stmts, errors, is_global)`: fold `recurse` over the
statements in order. -/
def loop_statements (stmts : List Statement) (errors : List String) (is_global : Bool) : List String :=
  match stmts with
  | [] => errors
  | statement :: rest => loop_statements rest (recurse statement errors is_global) is_global
termination_by structural stmts

/-- The `for elseif in &i.elseifs` loop inside the `If` arm of `recurse`. -/
def loop_elseifs (blocks : List (List Statement)) (errors : List String) (is_global : Bool) : List String :=
  match blocks with
  | [] => errors
  | b :: rest => loop_elseifs rest (loop_statements b errors is_global) is_global
termination_by structural blocks

end

/-- `fn validate_func(body, errors, is_global)`: parameter names are checked
with `allow_vars = true` (reserved-name rule only), then the body block is
traversed with the incoming `is_global`. -/
def validate_func (params : List String) (body : List Statement) (errors : List String) (is_global : Bool) : List String :=
  let errors := validate_names params errors true
  loop_statements body errors is_global

mutual

/-- Modelled from the spec: the traversal order §3/§8 assert — "left-to-right,
depth-first discovery order" "matching source statement order, including
if/elseif/else branch order".  Identical to `recurse` except that the `If`
arm visits the primary block, then the `elseif` blocks in source order, and
the `else` block last.  Used only to compare the implementation's order
against the specified one. -/
def specRecurse (stmt : Statement) (errors : List String) (is_global : Bool) : List String :=
  let allow_vars := !is_global
  let is_global := false
  match stmt with
  | .functionDeclaration _ _ params body =>
    let errors := validate_names params errors true
    specLoopStatements body errors is_global
  | .localDeclaration names =>
    validate_names names errors allow_vars
  | .assignment vars =>
    let names := vars.filterMap (fun v => match v with | .name n => some n | .nonName => none)
    validate_names names errors allow_vars
  | .ifStat block elseifs elseBlock =>
    let errors := specLoopStatements block errors is_global
    let errors := specLoopElseifs elseifs errors is_global
    match elseBlock with
    | some el => specLoopStatements el errors is_global
    | none => errors
  | .whileStat block => specLoopStatements block errors is_global
  | .forGeneric block => specLoopStatements block errors is_global
  | .forNumerical block => specLoopStatements block errors is_global
  | .repeatStat block => specLoopStatements block errors is_global
  | .other => errors
termination_by structural stmt

/-- Spec-order companion of `loop_statements`. -/
def specLoopStatements (stmts : List Statement) (errors : List String) (is_global : Bool) : List String :=
  match stmts with
  | [] => errors
  | statement :: rest => specLoopStatements rest (specRecurse statement errors is_global) is_global
termination_by structural stmts

/-- Spec-order companion of `loop_elseifs`. -/
def specLoopElseifs (blocks : List (List Statement)) (errors : List String) (is_global : Bool) : List String :=
  match blocks with
  | [] => errors
  | b :: rest => specLoopElseifs rest (specLoopStatements b errors is_global) is_global
termination_by structural blocks

end

/-- `fn validate_aerospike(s) -> Vec<String>`: on a successful parse, run
`loop_statements` on the root block with `is_global = true`; on a parse error,
`panic!` with the parser's formatted message (modelled as `Except.error`).
The parser itself is external, so the function consumes the parse result. -/
def validate_aerospike (parseResult : Except String (List Statement)) : Except String (List String) :=
  match parseResult with
  | .ok block => .ok (loop_statements block [] true)
  | .error e => .error e

/-- Outcome of the `define` proc-macro: a `panic!` escaping the macro (parse
failure), a compile-error token stream carrying the given messages in order
(the first `syn::Error` with the rest `combine`d into it), or the accepted
input tokens. -/
inductive DefineOutcome where
  | panicked (msg : String)
  | rejected (reasons : List String)
  | accepted
  deriving DecidableEq, Repr

/-- What one invocation of `define` did: whether the `rlua` sandbox execution
was invoked, and the outcome. -/
structure DefineTrace where
  sanityConsulted : Bool
  outcome : DefineOutcome
  deriving DecidableEq, Repr

/-- `pub fn define(input: TokenStream)`: first `Lua::new().context` executes
the chunk unconditionally (its error, if any, is `luaResult`); then
`validate_aerospike` runs (panicking on a parse failure); the collected
errors become `syn::Error`s, the first combined with the rest; if there are
none, a captured Lua error is reported; otherwise the input is accepted. -/
def define (luaResult : Option String) (parseResult : Except String (List Statement)) : DefineTrace :=
  let sanityConsulted := true
  match validate_aerospike parseResult with
  | .error msg => ⟨sanityConsulted, .panicked msg⟩
  | .ok errors =>
    match errors with
    | f :: rest => ⟨sanityConsulted, .rejected (f :: rest)⟩
    | [] =>
      match luaResult with
      | some err => ⟨sanityConsulted, .rejected [err]⟩
      | none => ⟨sanityConsulted, .accepted⟩

/-! ### Structural lemmas about the validator -/

/-- The diagnostics one name contributes inside `validate_names`. -/
def nameDiags (allow_vars : Bool) (n : String) : List String :=
  (if is_reserved n then [reservedMsg n] else []) ++ (if !allow_vars then [globalMsg n] else [])

/-- The bare-identifier names among assignment targets, as extracted by the
`Assignment` arm of `recurse`. -/
def bareNames (vars : List Var) : List String :=
  vars.filterMap (fun v => match v with | .name n => some n | .nonName => none)

theorem validate_names_closed (names : List String) (errors : List String) (a : Bool) :
    validate_names names errors a = errors ++ (names.map (nameDiags a)).flatten := by
  induction names generalizing errors with
  | nil => simp [validate_names]
  | cons n rest ih =>
    simp only [validate_names, List.map_cons, List.flatten]
    rw [ih]
    cases h1 : is_reserved n <;> cases a <;> simp [nameDiags, h1]

theorem reservedMsg_ne_globalMsg (n m : String) : reservedMsg n ≠ globalMsg m := by
  intro h
  have h2 := congrArg (fun s => s.data.head?) h
  simp [reservedMsg, globalMsg, String.data_append] at h2

mutual

theorem recurse_append (stmt : Statement) (errors : List String) (g : Bool) :
    recurse stmt errors g = errors ++ recurse stmt [] g := by
  cases stmt with
  | functionDeclaration l n ps body =>
    simp only [recurse]
    rw [loop_statements_append body (validate_names ps errors true) false,
        loop_statements_append body (validate_names ps [] true) false,
        validate_names_closed ps errors true, validate_names_closed ps [] true]
    simp
  | localDeclaration names =>
    simp only [recurse]
    rw [validate_names_closed, validate_names_closed]
    simp
  | assignment vars =>
    simp only [recurse]
    rw [validate_names_closed, validate_names_closed]
    simp
  | ifStat blk eifs els =>
    cases els with
    | none =>
      simp only [recurse]
      rw [loop_elseifs_append eifs (loop_statements blk errors false) false,
          loop_elseifs_append eifs (loop_statements blk [] false) false,
          loop_statements_append blk errors false]
      simp
    | some el =>
      simp only [recurse]
      rw [loop_elseifs_append eifs (loop_statements el (loop_statements blk errors false) false) false,
          loop_elseifs_append eifs (loop_statements el (loop_statements blk [] false) false) false,
          loop_statements_append el (loop_statements blk errors false) false,
          loop_statements_append el (loop_statements blk [] false) false,
          loop_statements_append blk errors false]
      simp
  | whileStat blk =>
    simp only [recurse]
    exact loop_statements_append blk errors false
  | forGeneric blk =>
    simp only [recurse]
    exact loop_statements_append blk errors false
  | forNumerical blk =>
    simp only [recurse]
    exact loop_statements_append blk errors false
  | repeatStat blk =>
    simp only [recurse]
    exact loop_statements_append blk errors false
  | other =>
    simp [recurse]
termination_by structural stmt

theorem loop_statements_append (stmts : List Statement) (errors : List String) (g : Bool) :
    loop_statements stmts errors g = errors ++ loop_statements stmts [] g := by
  cases stmts with
  | nil => simp [loop_statements]
  | cons s rest =>
    simp only [loop_statements]
    rw [loop_statements_append rest (recurse s errors g) g,
        loop_statements_append rest (recurse s [] g) g,
        recurse_append s errors g]
    simp
termination_by structural stmts

theorem loop_elseifs_append (blocks : List (List Statement)) (errors : List String) (g : Bool) :
    loop_elseifs blocks errors g = errors ++ loop_elseifs blocks [] g := by
  cases blocks with
  | nil => simp [loop_elseifs]
  | cons b rest =>
    simp only [loop_elseifs]
    rw [loop_elseifs_append rest (loop_statements b errors g) g,
        loop_elseifs_append rest (loop_statements b [] g) g,
        loop_statements_append b errors g]
    simp
termination_by structural blocks

end

theorem mem_validate_names_true (m : String) (names : List String)
    (hm : m ∈ validate_names names [] true) :
    ∃ n, is_reserved n = true ∧ m = reservedMsg n := by
  rw [validate_names_closed] at hm
  simp only [List.nil_append, List.mem_flatten, List.mem_map] at hm
  obtain ⟨l, ⟨n, hn, rfl⟩, hml⟩ := hm
  by_cases h : is_reserved n = true
  · simp [nameDiags, h] at hml
    exact ⟨n, h, hml⟩
  · simp [nameDiags, h] at hml

mutual

theorem recurse_nested (s : Statement) (m : String) (hm : m ∈ recurse s [] false) :
    ∃ n, is_reserved n = true ∧ m = reservedMsg n := by
  cases s with
  | functionDeclaration l nm ps body =>
    simp only [recurse] at hm
    rw [loop_statements_append body (validate_names ps [] true) false] at hm
    rcases List.mem_append.mp hm with h | h
    · exact mem_validate_names_true m ps h
    · exact loop_statements_nested body m h
  | localDeclaration names =>
    simp only [recurse, Bool.not_false] at hm
    exact mem_validate_names_true m names hm
  | assignment vars =>
    simp only [recurse, Bool.not_false] at hm
    exact mem_validate_names_true m _ hm
  | ifStat blk eifs els =>
    cases els with
    | none =>
      simp only [recurse] at hm
      rw [loop_elseifs_append eifs (loop_statements blk [] false) false] at hm
      rcases List.mem_append.mp hm with h | h
      · exact loop_statements_nested blk m h
      · exact loop_elseifs_nested eifs m h
    | some el =>
      simp only [recurse] at hm
      rw [loop_elseifs_append eifs (loop_statements el (loop_statements blk [] false) false) false,
          loop_statements_append el (loop_statements blk [] false) false] at hm
      rcases List.mem_append.mp hm with h | h
      · rcases List.mem_append.mp h with h2 | h2
        · exact loop_statements_nested blk m h2
        · exact loop_statements_nested el m h2
      · exact loop_elseifs_nested eifs m h
  | whileStat blk =>
    simp only [recurse] at hm
    exact loop_statements_nested blk m hm
  | forGeneric blk =>
    simp only [recurse] at hm
    exact loop_statements_nested blk m hm
  | forNumerical blk =>
    simp only [recurse] at hm
    exact loop_statements_nested blk m hm
  | repeatStat blk =>
    simp only [recurse] at hm
    exact loop_statements_nested blk m hm
  | other =>
    simp [recurse] at hm
termination_by structural s

theorem loop_statements_nested (stmts : List Statement) (m : String)
    (hm : m ∈ loop_statements stmts [] false) :
    ∃ n, is_reserved n = true ∧ m = reservedMsg n := by
  cases stmts with
  | nil => simp [loop_statements] at hm
  | cons s rest =>
    simp only [loop_statements] at hm
    rw [loop_statements_append rest (recurse s [] false) false] at hm
    rcases List.mem_append.mp hm with h | h
    · exact recurse_nested s m h
    · exact loop_statements_nested rest m h
termination_by structural stmts

theorem loop_elseifs_nested (blocks : List (List Statement)) (m : String)
    (hm : m ∈ loop_elseifs blocks [] false) :
    ∃ n, is_reserved n = true ∧ m = reservedMsg n := by
  cases blocks with
  | nil => simp [loop_elseifs] at hm
  | cons b rest =>
    simp only [loop_elseifs] at hm
    rw [loop_elseifs_append rest (loop_statements b [] false) false] at hm
    rcases List.mem_append.mp hm with h | h
    · exact loop_statements_nested b m h
    · exact loop_elseifs_nested rest m h
termination_by structural blocks

end

/-- Any diagnostic added by a block traversed in the nested context is a
reserved-identifier message; in particular no global-variable message is ever
added there. -/
theorem loop_statements_nested_no_global (stmts : List Statement) (errs : List String)
    (n : String) (hm : globalMsg n ∈ loop_statements stmts errs false) :
    globalMsg n ∈ errs := by
  rw [loop_statements_append stmts errs false] at hm
  rcases List.mem_append.mp hm with h | h
  · exact h
  · obtain ⟨n2, _, h2⟩ := loop_statements_nested stmts (globalMsg n) h
    exact absurd h2.symm (reservedMsg_ne_globalMsg n2 n)

/-- The traversal of a statement list is the incoming errors followed by each
statement's own contribution, in list order. -/
theorem loop_statements_flatten (stmts : List Statement) (errs : List String) (g : Bool) :
    loop_statements stmts errs g = errs ++ (stmts.map (fun s => recurse s [] g)).flatten := by
  induction stmts generalizing errs with
  | nil => simp [loop_statements]
  | cons s rest ih =>
    simp only [loop_statements, List.map_cons, List.flatten_cons]
    rw [ih (recurse s errs g), recurse_append s errs g]
    simp

/-! ### Claims -/

/-- C5: `is_reserved` returns true exactly on the eight unique reserved
names, by exact case-sensitive comparison; the shipped constant has nine
entries, one of them a duplicate, with the same membership behaviour. -/
theorem is_reserved_members :
    (∀ n : String, is_reserved n = true ↔
      n ∈ (["record", "map", "list", "aerospike", "bytes", "geojson", "iterator",
            "stream"] : List String))
    ∧ AEROSPIKE_NAMES.length = 9
    ∧ AEROSPIKE_NAMES.dedup.length = 8 := by
  refine ⟨fun n => ?_, by decide, by decide⟩
  simp only [is_reserved, AEROSPIKE_NAMES, List.any_eq_true, List.mem_cons, List.not_mem_nil,
    or_false, beq_iff_eq]
  constructor
  · rintro ⟨a, ha, rfl⟩
    tauto
  · intro h
    exact ⟨n, by tauto, rfl⟩

/-- C5 witness: the theorem applied at the concrete name `map`. -/
theorem is_reserved_members_witness : is_reserved "map" = true :=
  (is_reserved_members.1 "map").mpr (by decide)

/-- C6: a parse failure is unrecoverable — `validate_aerospike` propagates
the parser's message as a panic and `define` aborts with it, for any sanity
result: no diagnostic list is ever produced from a failed parse. -/
theorem parse_failure_aborts (msg : String) (lua : Option String) :
    validate_aerospike (.error msg) = .error msg
    ∧ define lua (.error msg) = ⟨true, .panicked msg⟩ :=
  ⟨rfl, rfl⟩

/-- C9: the name declared by a function statement is never examined — the
diagnostics are independent of it for local and non-local declarations alike
— and a root-level function declaration whose own name is reserved, with no
parameters and an empty body, yields no diagnostic. -/
theorem function_name_never_checked (isLoc : Bool) (nm1 nm2 : String)
    (ps : List String) (body : List Statement) (errs : List String) (g : Bool) :
    recurse (.functionDeclaration isLoc nm1 ps body) errs g
      = recurse (.functionDeclaration isLoc nm2 ps body) errs g
    ∧ (∀ isLoc2 g2 errs2, recurse (.functionDeclaration isLoc2 "map" [] []) errs2 g2 = errs2) := by
  constructor
  · simp only [recurse]
  · intro isLoc2 g2 errs2
    simp [recurse, loop_statements, validate_names]

/-- C7: assignment targets that are member or index expressions are checked
by neither rule, at any context: dropping them does not change the result,
the result is determined by the bare-identifier targets alone, a lone
non-name target contributes nothing, and a bare-identifier target is checked
by both rules at the root and by the reserved rule alone when nested. -/
theorem assignment_bare_targets_only (vars : List Var) (errs : List String) (g : Bool) :
    recurse (.assignment vars) errs g
      = recurse (.assignment (vars.filter (fun v => match v with | .name _ => true | .nonName => false))) errs g
    ∧ recurse (.assignment vars) errs g = errs ++ ((bareNames vars).map (nameDiags (!g))).flatten
    ∧ recurse (.assignment [.nonName]) errs g = errs
    ∧ (∀ n, recurse (.assignment [.name n]) errs true
        = errs ++ (if is_reserved n then [reservedMsg n] else []) ++ [globalMsg n])
    ∧ (∀ n, recurse (.assignment [.name n]) errs false
        = errs ++ (if is_reserved n then [reservedMsg n] else [])) := by
  have hfilter : (vars.filter (fun v => match v with | .name _ => true | .nonName => false)).filterMap
        (fun v => match v with | .name n => some n | .nonName => none)
      = vars.filterMap (fun v => match v with | .name n => some n | .nonName => none) := by
    induction vars with
    | nil => rfl
    | cons v rest ih => cases v <;> simp_all [List.filter_cons, List.filterMap_cons]
  refine ⟨?_, ?_, ?_, ?_, ?_⟩
  · simp only [recurse, hfilter]
  · simp only [recurse]
    rw [validate_names_closed]
    rfl
  · simp [recurse, validate_names]
  · intro n
    simp only [recurse]
    rw [validate_names_closed]
    cases h : is_reserved n <;> simp [nameDiags, h]
  · intro n
    simp only [recurse]
    rw [validate_names_closed]
    cases h : is_reserved n <;> simp [nameDiags, h]

/-- C10: at the root, every declared name contributes (when reserved) its
reserved diagnostic immediately followed by its global diagnostic, per name
in target order, never grouped by rule — shown for local declarations and
bare assignment targets, with a concrete two-name instance interleaving the
pairs. -/
theorem reserved_root_pair (names : List String) (vars : List Var) (errs : List String) :
    recurse (.localDeclaration names) errs true
      = errs ++ (names.map (fun n =>
          (if is_reserved n then [reservedMsg n] else []) ++ [globalMsg n])).flatten
    ∧ recurse (.assignment vars) errs true
      = errs ++ ((bareNames vars).map (fun n =>
          (if is_reserved n then [reservedMsg n] else []) ++ [globalMsg n])).flatten
    ∧ recurse (.localDeclaration ["map", "x", "list"]) errs true
      = errs ++ [reservedMsg "map", globalMsg "map", globalMsg "x",
                 reservedMsg "list", globalMsg "list"] := by
  have hdiag : nameDiags false = fun n =>
      (if is_reserved n then [reservedMsg n] else []) ++ [globalMsg n] := by
    funext n
    simp [nameDiags]
  refine ⟨?_, ?_, ?_⟩
  · simp only [recurse, Bool.not_true]
    rw [validate_names_closed, hdiag]
  · simp only [recurse, Bool.not_true]
    rw [validate_names_closed, hdiag]
    rfl
  · simp only [recurse, Bool.not_true]
    rw [validate_names_closed]
    simp [nameDiags, is_reserved, AEROSPIKE_NAMES]

/-- C3: each target name of a root-level local declaration, and each bare
target name of a root-level assignment, yields a global-declaration
violation; statements traversed in the nested context — every function body,
if/elseif/else branch, loop body and repeat body, at any depth — never add
one, and in particular the same statement kinds there yield none. -/
theorem global_rule_root_only (names : List String) (vars : List Var) (errs : List String) :
    (∀ n, n ∈ names → globalMsg n ∈ recurse (.localDeclaration names) errs true)
    ∧ (∀ n, Var.name n ∈ vars → globalMsg n ∈ recurse (.assignment vars) errs true)
    ∧ (∀ stmts n, globalMsg n ∈ loop_statements stmts errs false → globalMsg n ∈ errs)
    ∧ (∀ n, globalMsg n ∉ recurse (.localDeclaration names) [] false)
    ∧ (∀ n, globalMsg n ∉ recurse (.assignment vars) [] false) := by
  have hmem : ∀ (ns : List String) (n : String), n ∈ ns →
      globalMsg n ∈ validate_names ns errs false := by
    intro ns n hn
    rw [validate_names_closed]
    refine List.mem_append.mpr (Or.inr ?_)
    simp only [List.mem_flatten, List.mem_map]
    exact ⟨nameDiags false n, ⟨n, hn, rfl⟩, by simp [nameDiags]⟩
  have hnog : ∀ s : Statement, ∀ n, globalMsg n ∉ recurse s [] false := by
    intro s n hm
    obtain ⟨n2, _, h2⟩ := recurse_nested s (globalMsg n) hm
    exact absurd h2.symm (reservedMsg_ne_globalMsg n2 n)
  refine ⟨?_, ?_, ?_, ?_, ?_⟩
  · intro n hn
    simp only [recurse, Bool.not_true]
    exact hmem names n hn
  · intro n hn
    simp only [recurse, Bool.not_true]
    refine hmem _ n ?_
    simp only [List.mem_filterMap]
    exact ⟨.name n, hn, rfl⟩
  · exact fun stmts n => loop_statements_nested_no_global stmts errs n
  · exact fun n => hnog _ n
  · exact fun n => hnog _ n

/-- C3 witness: the theorem applied at concrete root-level statements. -/
theorem global_rule_root_only_witness :
    globalMsg "x" ∈ recurse (.localDeclaration ["x"]) [] true
    ∧ globalMsg "y" ∈ recurse (.assignment [.name "y"]) [] true
    ∧ globalMsg "z" ∈ ([globalMsg "z"] : List String) := by
  refine ⟨?_, ?_, ?_⟩
  · exact (global_rule_root_only ["x"] [] []).1 "x" (by decide)
  · exact (global_rule_root_only [] [.name "y"] []).2.1 "y" (by decide)
  · exact (global_rule_root_only [] [] [globalMsg "z"]).2.2.1 [] "z" (by decide)

/-- C4: every parameter of a function declaration, at any context and any
nesting depth, is checked against the registry — a reserved parameter yields
its reserved diagnostic — and no global-variable diagnostic ever arises from
a function declaration beyond those already collected. -/
theorem function_params_reserved_only (isLoc : Bool) (nm : String) (ps : List String)
    (body : List Statement) (errs : List String) (g : Bool) :
    recurse (.functionDeclaration isLoc nm ps body) errs g
      = errs ++ (ps.map (fun p => if is_reserved p then [reservedMsg p] else [])).flatten
          ++ loop_statements body [] false
    ∧ (∀ p, p ∈ ps → is_reserved p = true →
        reservedMsg p ∈ recurse (.functionDeclaration isLoc nm ps body) errs g)
    ∧ (∀ n, globalMsg n ∈ recurse (.functionDeclaration isLoc nm ps body) errs g →
        globalMsg n ∈ errs) := by
  have hclosed : recurse (.functionDeclaration isLoc nm ps body) errs g
      = errs ++ (ps.map (fun p => if is_reserved p then [reservedMsg p] else [])).flatten
          ++ loop_statements body [] false := by
    simp only [recurse]
    rw [loop_statements_append body (validate_names ps errs true) false,
        validate_names_closed ps errs true]
    have : ps.map (nameDiags true) = ps.map (fun p => if is_reserved p then [reservedMsg p] else []) := by
      refine List.map_congr_left (fun p _ => ?_)
      simp [nameDiags]
    rw [this, List.append_assoc]
  refine ⟨hclosed, ?_, ?_⟩
  · intro p hp hres
    rw [hclosed]
    refine List.mem_append.mpr (Or.inl (List.mem_append.mpr (Or.inr ?_)))
    simp only [List.mem_flatten, List.mem_map]
    exact ⟨[reservedMsg p], ⟨p, hp, by simp [hres]⟩, by simp⟩
  · intro n hm
    rw [hclosed] at hm
    rcases List.mem_append.mp hm with h | h
    · rcases List.mem_append.mp h with h2 | h2
      · exact h2
      · simp only [List.mem_flatten, List.mem_map] at h2
        obtain ⟨l, ⟨p, _, rfl⟩, hml⟩ := h2
        by_cases hres : is_reserved p = true
        · simp [hres] at hml
          exact absurd hml.symm (reservedMsg_ne_globalMsg p n)
        · simp [hres] at hml
    · obtain ⟨n2, _, h2⟩ := loop_statements_nested body (globalMsg n) h
      exact absurd h2.symm (reservedMsg_ne_globalMsg n2 n)

/-- C4 witness: the theorem applied at a concrete function declaration with
a reserved parameter, at the root and nested. -/
theorem function_params_reserved_only_witness :
    reservedMsg "map" ∈ recurse (.functionDeclaration true "f" ["map"] []) [] true
    ∧ reservedMsg "map" ∈ recurse (.functionDeclaration false "g" ["map"] []) [] false
    ∧ globalMsg "z" ∈ ([globalMsg "z"] : List String) := by
  refine ⟨?_, ?_, ?_⟩
  · exact (function_params_reserved_only true "f" ["map"] [] [] true).2.1 "map"
      (by decide) (by decide)
  · exact (function_params_reserved_only false "g" ["map"] [] [] false).2.1 "map"
      (by decide) (by decide)
  · exact (function_params_reserved_only true "h" [] [] [globalMsg "z"] true).2.2 "z"
      (by decide)

/-- C8: the validator never halts early — the diagnostics of a statement
list are the incoming errors followed by every statement's own contribution,
in order — and a root script with one reserved-name violation and one
global-variable violation yields both (at least two diagnostics). -/
theorem no_early_exit (stmts : List Statement) (errs : List String) (g : Bool) :
    loop_statements stmts errs g = errs ++ (stmts.map (fun s => recurse s [] g)).flatten
    ∧ loop_statements
        [.functionDeclaration true "f" ["map"] [], .localDeclaration ["x"]] [] true
      = [reservedMsg "map", globalMsg "x"]
    ∧ 2 ≤ (loop_statements
        [.functionDeclaration true "f" ["map"] [], .localDeclaration ["x"]] [] true).length := by
  exact ⟨loop_statements_flatten stmts errs g, by decide, by decide⟩

/-- C2 counterexample: with a violating declaration in an `elseif` branch
(earlier in source order) and another in the `else` branch, the
implementation emits the `else` diagnostic before the `elseif` one, so its
output differs from the spec-order traversal `specLoopStatements`. -/
theorem traversal_order_spec_mismatch :
    loop_statements
        [.ifStat [] [[.localDeclaration ["map"]]] (some [.localDeclaration ["record"]])] [] true
      = [reservedMsg "record", reservedMsg "map"]
    ∧ specLoopStatements
        [.ifStat [] [[.localDeclaration ["map"]]] (some [.localDeclaration ["record"]])] [] true
      = [reservedMsg "map", reservedMsg "record"]
    ∧ (loop_statements
        [.ifStat [] [[.localDeclaration ["map"]]] (some [.localDeclaration ["record"]])] [] true
      == specLoopStatements
        [.ifStat [] [[.localDeclaration ["map"]]] (some [.localDeclaration ["record"]])] [] true)
      = false := by
  refine ⟨by decide, by decide, by decide⟩

/-- C2 amended: diagnostics are appended by pure concatenation in the
traversal order — per statement in list order, never reordered or
deduplicated — where an `if` statement's blocks are visited primary block
first, then the `else` block, then the `elseif` blocks; two root-level
violating statements in source order A then B yield diagnostics A then B. -/
theorem diagnostic_order_concatenation (stmts : List Statement) (errs : List String) (g : Bool)
    (blk el : List Statement) (eifs : List (List Statement)) :
    loop_statements stmts errs g = errs ++ (stmts.map (fun s => recurse s [] g)).flatten
    ∧ recurse (.ifStat blk eifs (some el)) errs g
      = errs ++ loop_statements blk [] false ++ loop_statements el [] false
          ++ loop_elseifs eifs [] false
    ∧ loop_statements [.localDeclaration ["map"], .localDeclaration ["x"]] [] true
      = [reservedMsg "map", globalMsg "map", globalMsg "x"] := by
  refine ⟨loop_statements_flatten stmts errs g, ?_, by decide⟩
  simp only [recurse]
  rw [loop_elseifs_append eifs (loop_statements el (loop_statements blk errs false) false) false,
      loop_statements_append el (loop_statements blk errs false) false,
      loop_statements_append blk errs false]

/-- C1 counterexample: the sandbox execution is consulted even though the
validator produced a non-empty diagnostic list (the Rust `define` runs the
`rlua` chunk before validating), contradicting "consulted only when the
ValidationResult is empty". -/
theorem sanity_consulted_despite_diagnostics :
    (define (some "runtime error") (.ok [.localDeclaration ["x"]])).sanityConsulted = true
    ∧ loop_statements [.localDeclaration ["x"]] [] true = [globalMsg "x"]
    ∧ (define (some "runtime error") (.ok [.localDeclaration ["x"]])).outcome
        = .rejected [globalMsg "x"] := by
  refine ⟨rfl, by decide, by decide⟩

/-- C1 amended: the Sanity-Checker is always run (before validation), but at
most one source contributes to the reported result: when the validator's
diagnostics are empty the sanity failure (if any) is the sole reported
error, and when they are non-empty exactly those diagnostics are reported
and the sanity result is discarded. -/
theorem define_single_error_source (lua : Option String) (block : List Statement) :
    (define lua (.ok block)).sanityConsulted = true
    ∧ (loop_statements block [] true = [] →
        (define lua (.ok block)).outcome
          = match lua with | some e => .rejected [e] | none => .accepted)
    ∧ (∀ f rest, loop_statements block [] true = f :: rest →
        (define lua (.ok block)).outcome = .rejected (f :: rest)) := by
  refine ⟨?_, ?_, ?_⟩
  · cases h : loop_statements block [] true <;> cases lua <;>
      simp [define, validate_aerospike, h]
  · intro hempty
    cases lua <;> simp [define, validate_aerospike, hempty]
  · intro f rest hcons
    cases lua <;> simp [define, validate_aerospike, hcons]

/-- C1 witness: the amended theorem applied with an empty script and a
failing sanity run, and with a violating script and the same sanity run. -/
theorem define_single_error_source_witness :
    (define (some "boom") (.ok ([] : List Statement))).outcome = .rejected ["boom"]
    ∧ (define (some "boom") (.ok [.localDeclaration ["x"]])).outcome
        = .rejected [globalMsg "x"] := by
  constructor
  · exact (define_single_error_source (some "boom") []).2.1 (by decide)
  · exact (define_single_error_source (some "boom") [.localDeclaration ["x"]]).2.2
      (globalMsg "x") [] (by decide)

end AerospikeCodeGen
